import Mathlib

/-!
Verification of the Server-Manager-cloud/cronjobs monitoring scripts.

The Go sources are shallowly embedded: pure parsing helpers become Lean
functions over `List Char`, process execution and HTTP I/O become explicit
oracles (`CmdResult`, `CheckResp`, `WriteResp`) passed to the embedded
functions, which return the list of HTTP requests they issue together with
their `Except` result.  Go `uint64` arithmetic is modelled as `Nat` with
explicit reduction modulo `2 ^ 64`; Go `float64` arithmetic is modelled
exactly over `ℚ`.
-/

/-! ## Go string primitives (strings / strconv / bufio), on `List Char` -/

/-- Whitespace test used by `strings.Fields` (the Latin-1 part of
`unicode.IsSpace`; the probe inputs contain no exotic Unicode spaces). -/
def goIsSpace (c : Char) : Bool :=
  c = ' ' || c = '\t' || c = '\n' || c = '\r' ||
    c.toNat = 11 || c.toNat = 12 || c.toNat = 133 || c.toNat = 160

/-- One step of the `strings.Fields` scan, processed right to left.
State: the word currently being built and the completed words to the right. -/
def wordsStep (c : Char) (st : List Char × List (List Char)) :
    List Char × List (List Char) :=
  if goIsSpace c then ([], if st.1 = [] then st.2 else st.1 :: st.2)
  else (c :: st.1, st.2)

/-- Words remaining once a scan state is flushed. -/
def wordsOf (st : List Char × List (List Char)) : List (List Char) :=
  if st.1 = [] then st.2 else st.1 :: st.2

/-- `strings.Fields`: split around runs of whitespace. -/
def goFields (l : List Char) : List (List Char) :=
  wordsOf (l.foldr wordsStep ([], []))

/-- `strings.Split(s, sep)` for a one-character separator. -/
def splitOnChar (sep : Char) (l : List Char) : List (List Char) :=
  let st := l.foldr
    (fun c (st : List Char × List (List Char)) =>
      if c = sep then ([], st.1 :: st.2) else (c :: st.1, st.2))
    ([], [])
  st.1 :: st.2

/-- `strings.HasPrefix` (does `l` start with `p`). -/
def goHasPre : List Char → List Char → Bool
  | _, [] => true
  | [], _ :: _ => false
  | c :: cs, p :: ps => c = p && goHasPre cs ps

/-- `strings.TrimPrefix` (drop `p` from the front of `l` when present). -/
def goTrimPre (l p : List Char) : List Char :=
  if goHasPre l p then l.drop p.length else l

/-- `strings.TrimSuffix` (drop `p` from the end of `l` when present). -/
def goTrimSuffix (l p : List Char) : List Char :=
  if goHasPre l.reverse p.reverse then (l.reverse.drop p.length).reverse else l

/-- `strings.Contains` (does `l` contain `p` as a contiguous substring). -/
def goContains : List Char → List Char → Bool
  | [], p => goHasPre [] p
  | c :: cs, p => goHasPre (c :: cs) p || goContains cs p

/-- `strings.Replace(s, old, "", 1)`: remove the first occurrence of `old`. -/
def goRemoveFirst : List Char → List Char → List Char
  | [], _ => []
  | c :: cs, old =>
    if goHasPre (c :: cs) old then (c :: cs).drop old.length
    else c :: goRemoveFirst cs old

/-- `strings.TrimSpace`: drop whitespace from both ends. -/
def goTrimSpace (l : List Char) : List Char :=
  ((l.dropWhile goIsSpace).reverse.dropWhile goIsSpace).reverse

/-- A decimal digit's value, if `c` is a digit. -/
def digitVal (c : Char) : Option Nat :=
  if 48 ≤ c.toNat ∧ c.toNat ≤ 57 then some (c.toNat - 48) else none

/-- Read a non-empty all-digit string as a `Nat` (no sign, base 10). -/
def digitsToNat : List Char → Option Nat
  | l =>
    l.foldl
      (fun acc c =>
        match acc, digitVal c with
        | some a, some d => some (a * 10 + d)
        | _, _ => none)
      (some 0)

/-- `strconv.ParseUint(s, 10, 64)`: digits only, value below `2 ^ 64`. -/
def goParseUint64 (l : List Char) : Except Unit Nat :=
  if l = [] then .error ()
  else
    match digitsToNat l with
    | none => .error ()
    | some n => if n < 2 ^ 64 then .ok n else .error ()

/-- `strconv.Atoi`: optional sign, digits, value within the `int64` range. -/
def goAtoi (l : List Char) : Except Unit Int :=
  match l with
  | '-' :: rest =>
    if rest = [] then .error ()
    else
      match digitsToNat rest with
      | none => .error ()
      | some n => if n ≤ 2 ^ 63 then .ok (-(n : Int)) else .error ()
  | '+' :: rest =>
    if rest = [] then .error ()
    else
      match digitsToNat rest with
      | none => .error ()
      | some n => if n ≤ 2 ^ 63 - 1 then .ok (n : Int) else .error ()
  | _ =>
    if l = [] then .error ()
    else
      match digitsToNat l with
      | none => .error ()
      | some n => if n ≤ 2 ^ 63 - 1 then .ok (n : Int) else .error ()

/-- Drop the final carriage return of a scanned line (`bufio.ScanLines`). -/
def dropFinalCR (l : List Char) : List Char :=
  if l.getLast? = some '\r' then l.dropLast else l

/-- The lines a `bufio.Scanner` with `ScanLines` yields on input `l`:
split on newlines, drop the empty token after a final newline, and strip
a final carriage return from each line. -/
def scanLines (l : List Char) : List (List Char) :=
  let parts := splitOnChar '\n' l
  let parts := if parts.getLast? = some [] then parts.dropLast else parts
  parts.map dropFinalCR

/-- `strings.Join(ws, ", ")`. -/
def joinComma : List String → String
  | [] => ""
  | [x] => x
  | x :: y :: xs => x ++ ", " ++ joinComma (y :: xs)

/-- String front-end for `goHasPre`. -/
def strHasPre (s p : String) : Bool := goHasPre s.data p.data

/-- String front-end for `goTrimPre`. -/
def strTrimPre (s p : String) : String := ⟨goTrimPre s.data p.data⟩

/-- Flattened map over a list, by direct recursion. -/
def listConcatMap (f : α → List β) : List α → List β
  | [] => []
  | x :: xs => f x ++ listConcatMap f xs

/-- The successful value of an `Except`, if any. -/
def exOk : Except ε α → Option α
  | .ok a => some a
  | .error _ => none

/-- Whether an `Except` is an error. -/
def exIsErr : Except ε α → Bool
  | .ok _ => false
  | .error _ => true

instance {ε α : Type} [DecidableEq ε] [DecidableEq α] :
    DecidableEq (Except ε α) := fun a b =>
  match a, b with
  | .ok x, .ok y =>
    if h : x = y then .isTrue (by rw [h]) else .isFalse (by simp [h])
  | .error x, .error y =>
    if h : x = y then .isTrue (by rw [h]) else .isFalse (by simp [h])
  | .ok _, .error _ => .isFalse (by simp)
  | .error _, .ok _ => .isFalse (by simp)

/-! ## HTTP model -/

/-- The HTTP methods the probes build with `http.NewRequest`. -/
inductive HttpMethod
  | GET | POST | PUT | PATCH
deriving DecidableEq

/-- The JSON payload a request carries, per probe (flat payloads, kept
structured rather than serialized). -/
inductive ReqBody
  /-- No body (GET requests). -/
  | empty
  /-- domains probe payload: `{"server":…, "name":…, "nameserver":…}`. -/
  | domains (server name nameserver : String)
  /-- cpu probe payload: `{"cpuUsage":…, "id":…}`. -/
  | cpu (cpuUsage : ℚ) (id : String)
  /-- harddrive probe payload: `{"usagePercentage":…, "path":…, "server":…}`. -/
  | hd (usagePercentage : Int) (path server : String)
  /-- nameserver probe payload: `{"nameserver":…}`. -/
  | ns (nameserver : String)
  /-- os probe payload: the marshalled `ServerOS` struct fields
  `server_id, name, version, golang, host, kernel, server`. -/
  | os (ID Name Version Golang Host Kernel Server : String)
deriving DecidableEq

/-- One HTTP request as issued through `http.Client.Do`. -/
structure Request where
  method : HttpMethod
  url : String
  body : ReqBody
deriving DecidableEq

/-- Response oracle for a write-style request: either the transport fails
or a status code comes back. -/
inductive WriteResp
  | netFail (msg : String)
  | status (code : Nat)
deriving DecidableEq

/-- Result of running an external command: failure, or its stdout. -/
inductive CmdResult
  | fail (msg : String)
  | ok (out : String)
deriving DecidableEq

/-! ## Orchestrator (the unnamed `main.go` runner) -/

/-- Observable result of `go run <script>`: captured stdout on success,
error text and captured stderr on failure. -/
inductive ExecResult
  | ok (stdout : String)
  | fail (errMsg stderr : String)
deriving DecidableEq

/-- Observable events of the orchestrator's trace. -/
inductive OEvent
  /-- "Running script: %s". -/
  | run (script : String)
  /-- "Error running script %s: %v / Stderr: %s". -/
  | logErr (script errMsg stderr : String)
  /-- "Output from %s: %s". -/
  | printOut (script stdout : String)
  /-- "All scripts executed.". -/
  | done
deriving DecidableEq

/-- The fixed script list of the orchestrator. -/
def scriptList : List String :=
  ["bin/harddrive.go", "bin/cpu.go", "bin/domains.go", "bin/nameserver.go"]

/-- The events one loop iteration produces for script `s`. -/
def runOne (ex : String → ExecResult) (s : String) : List OEvent :=
  match ex s with
  | .ok out => [OEvent.run s, OEvent.printOut s out]
  | .fail e st => [OEvent.run s, OEvent.logErr s e st]

/-- The orchestrator's loop over a script list. -/
def orchLoop (ex : String → ExecResult) : List String → List OEvent
  | [] => []
  | s :: rest => runOne ex s ++ orchLoop ex rest

/-- `main` of the orchestrator: run the fixed list, then report completion. -/
def orchestrate (ex : String → ExecResult) : List OEvent :=
  orchLoop ex scriptList ++ [OEvent.done]

/-- The script a `run` event names. -/
def runOf : OEvent → Option String
  | .run s => some s
  | _ => none

/-! ## domains probe (`src/bin/domains.go`) -/

/-- A decoded JSON value, as far as the probe inspects it: a string or
anything else. -/
inductive JVal
  | str (s : String)
  | other
deriving DecidableEq

/-- A decoded PocketBase record: a JSON object as key/value pairs. -/
abbrev JRecord := List (String × JVal)

/-- `records[0]["id"].(string)`: the `"id"` field of a record when it is
a string. -/
def recIdStr (r : JRecord) : Option String :=
  match r.find? (fun kv => kv.1 = "id") with
  | some (_, .str s) => some s
  | _ => none

/-- Response oracle for the existence-check GET of `checkDomainExists`:
transport failure, or a status code together with what decoding the body
as a record list would give. -/
inductive CheckResp
  | netFail (msg : String)
  | resp (status : Nat) (body : Except String (List JRecord))

/-- The query URL `checkDomainExists` builds. -/
def checkURL (apiURL domain : String) : String :=
  apiURL ++ "?filter=name=" ++ domain

/-- `checkDomainExists(apiURL, domain, serverID)`: issue one GET; on
status 200 decode the record list and return the first record's string
`"id"` if present; otherwise return the empty ID with no error.
(The `serverID` parameter is unused, as in the source.) -/
def checkDomainExists (apiURL domain _serverID : String) (r : CheckResp) :
    List Request × Except String String :=
  let reqs := [Request.mk .GET (checkURL apiURL domain) .empty]
  match r with
  | .netFail m => (reqs, .error ("failed to send request: " ++ m))
  | .resp status body =>
    (reqs,
      if status = 200 then
        match body with
        | .error m => .error ("failed to decode response: " ++ m)
        | .ok records =>
          match records.head? with
          | some r0 =>
            match recIdStr r0 with
            | some id => .ok id
            | none => .ok ""
          | none => .ok ""
      else .ok "")

/-- The record ID `checkDomainExists` yields on a given response, when it
succeeds. -/
def checkIdOf : CheckResp → String
  | .resp 200 (.ok (r0 :: _)) => (recIdStr r0).getD ""
  | _ => ""

/-- The write method `sendDomainsToPocketBase` picks for a given
existence-check response: PUT when a record ID came back, POST otherwise. -/
def writeMethodOf (r : CheckResp) : HttpMethod :=
  if checkIdOf r ≠ "" then .PUT else .POST

/-- One iteration of the `sendDomainsToPocketBase` loop for a certificate
domain `d`: check existence, then PUT to the record URL or POST to the
collection URL with the payload, and check the write status. -/
def processDomain (apiURL serverID : String) (co : String → CheckResp)
    (wo : String → WriteResp) (d : String) :
    List Request × Except String Unit :=
  let c := checkDomainExists apiURL d serverID (co d)
  match c.2 with
  | .error e => (c.1, .error ("failed to check if domain exists: " ++ e))
  | .ok recordID =>
    let pay := ReqBody.domains serverID d "unkown"
    let wreq :=
      if recordID ≠ "" then Request.mk .PUT (apiURL ++ "/" ++ recordID) pay
      else Request.mk .POST apiURL pay
    match wo d with
    | .netFail m => (c.1 ++ [wreq], .error ("failed to send request: " ++ m))
    | .status s =>
      (c.1 ++ [wreq],
        if s = 200 ∨ s = 201 then .ok ()
        else .error ("failed to send domain " ++ d))

/-- The `sendDomainsToPocketBase` loop: process the domains in order,
stopping at the first error. -/
def sendLoop (apiURL serverID : String) (co : String → CheckResp)
    (wo : String → WriteResp) : List String → List Request × Except String Unit
  | [] => ([], .ok ())
  | d :: ds =>
    let p := processDomain apiURL serverID co wo d
    match p.2 with
    | .error e => (p.1, .error e)
    | .ok _ =>
      let rest := sendLoop apiURL serverID co wo ds
      (p.1 ++ rest.1, rest.2)

/-- The collection URL `sendDomainsToPocketBase` builds from the
configured domain. -/
def domainsApiURL (cfgDomain : String) : String :=
  "https://" ++ cfgDomain ++ "/api/collections/domains/records"

/-- `sendDomainsToPocketBase(domain, domains, serverID)` with its two
HTTP oracles. -/
def sendDomainsToPocketBase (cfgDomain : String) (domains : List String)
    (serverID : String) (co : String → CheckResp) (wo : String → WriteResp) :
    List Request × Except String Unit :=
  sendLoop (domainsApiURL cfgDomain) serverID co wo domains

/-- `loadEnv` input: the `.env` file fails to open, or it scans as a list
of lines after which the scanner either finishes cleanly or reports an
error (`scanErr`). -/
inductive EnvFile
  | openFail (msg : String)
  | content (lines : List String) (scanErr : Bool)

/-- The lines an `EnvFile` yields before the scan ends. -/
def EnvFile.linesOf : EnvFile → List String
  | .openFail _ => []
  | .content lines _ => lines

/-- Whether an `EnvFile` failed to open. -/
def EnvFile.isOpenFail : EnvFile → Bool
  | .openFail _ => true
  | .content _ _ => false

/-- Whether scanning an `EnvFile` to its end reports an error. -/
def EnvFile.scanErrB : EnvFile → Bool
  | .openFail _ => false
  | .content _ e => e

/-- `loadEnv` of the domains probe: return the remainder of the first
line starting with `"ID="`; report the scan error only if the loop runs
past every line; otherwise report that no ID was found. -/
def loadEnvDomains : EnvFile → Except String String
  | .openFail m => .error ("failed to open .env file: " ++ m)
  | .content lines scanErr =>
    match lines.find? (fun l => strHasPre l "ID=") with
    | some l => .ok (strTrimPre l "ID=")
    | none =>
      if scanErr then .error "error reading .env file"
      else .error "ID not found in .env file"

/-- `getCertbotCertificates` of `src/bin/domains.go`: collect, from each
line containing `"Certificate Name:"`, the line with the first occurrence
of that marker removed (`strings.Replace(line, "Certificate Name:", "", 1)`). -/
def certNamesA (out : String) : List String :=
  (scanLines out.data).foldl
    (fun acc line =>
      if goContains line "Certificate Name:".data then
        acc ++ [(⟨goRemoveFirst line "Certificate Name:".data⟩ : String)]
      else acc)
    []

/-- `getCertbotCertificates` of `src/unnamed/part_003`: collect, from each
line containing `"Certificate Name:"`, the prefix-trimmed and
whitespace-trimmed name
(`strings.TrimSpace(strings.TrimPrefix(line, "Certificate Name:"))`). -/
def certNamesB (out : String) : List String :=
  (scanLines out.data).foldl
    (fun acc line =>
      if goContains line "Certificate Name:".data then
        acc ++ [(⟨goTrimSpace (goTrimPre line "Certificate Name:".data)⟩ : String)]
      else acc)
    []

/-! ## cpu probe (`src/unnamed/part_004`, first program) -/

/-- Parse every field of a `/proc/stat` cpu line after the first, left to
right, stopping at the first failure (the loop over `fields[1:]`). -/
def parseCPUFields : List (List Char) → Except Unit (List Nat)
  | [] => .ok []
  | f :: fs =>
    match goParseUint64 f with
    | .error e => .error e
    | .ok n =>
      match parseCPUFields fs with
      | .error e => .error e
      | .ok ns => .ok (n :: ns)

/-- The uint64 accumulation `total += time` of the cpu probe: a running
sum reduced modulo `2 ^ 64` at every step. -/
def sumU64 (vals : List Nat) : Nat :=
  vals.foldl (fun a t => (a + t) % 2 ^ 64) 0

/-- The first line of `/proc/stat` content starting with `"cpu "`. -/
def procStatCpuLine (content : String) : Option (List Char) :=
  (splitOnChar '\n' content.data).find? (fun l => goHasPre l "cpu ".data)

/-- `getCPUUsage`: find the `"cpu "` line, require at least 8 fields,
parse the fifth field as idle and every field after the first into the
wrapping uint64 total, and return `100 * (1 - idle/total)`, with the
float64 arithmetic modelled exactly over `ℚ`. -/
def getCPUUsage (content : String) : Except String ℚ :=
  match procStatCpuLine content with
  | none => .error "cpu data not found in /proc/stat"
  | some line =>
    let fields := goFields line
    if fields.length < 8 then .error "unexpected format in /proc/stat"
    else
      match goParseUint64 (fields.getD 4 []) with
      | .error _ => .error "failed to parse idle time"
      | .ok idle =>
        match parseCPUFields (fields.drop 1) with
        | .error _ => .error "failed to parse CPU time"
        | .ok vals =>
          .ok (100 * (1 - (idle : ℚ) / (sumU64 vals : ℚ)))

/-- The collection URL the cpu probe posts to. -/
def cpuApiURL (domain : String) : String :=
  "https://" ++ domain ++ "/api/collections/cpu/records"

/-- `sendUsageToPocketBase` of the cpu probe: the wall-clock minute of
`time.Now()` is an explicit argument; the POST happens only when it is 0. -/
def sendUsageCPU (minute : Nat) (cpuUsage : ℚ) (id domain : String)
    (wo : WriteResp) : List Request × Except String Unit :=
  if minute = 0 then
    let req := Request.mk .POST (cpuApiURL domain) (ReqBody.cpu cpuUsage id)
    match wo with
    | .netFail m => ([req], .error ("failed to send request: " ++ m))
    | .status s =>
      ([req],
        if s = 200 ∨ s = 201 then .ok ()
        else .error "failed to update status")
  else ([], .ok ())

/-! ## harddrive probe (`src/bin/harddrive.go`) -/

/-- The second newline-separated line of a df output. -/
def dfSecondLine (out : String) : List Char :=
  (splitOnChar '\n' out.data).getD 1 []

/-- The fifth whitespace-separated field of the second df line, with a
trailing `%` removed. -/
def dfUsageField (out : String) : List Char :=
  goTrimSuffix ((goFields (dfSecondLine out)).getD 4 []) "%".data

/-- `getDiskUsage`: run `df -h path`, take the second output line,
require at least five fields, strip a trailing `%` from the fifth and
parse it with `strconv.Atoi`. -/
def getDiskUsage (r : CmdResult) : Except String Int :=
  match r with
  | .fail m => .error ("failed to execute df command: " ++ m)
  | .ok out =>
    if (splitOnChar '\n' out.data).length < 2 then
      .error "unexpected output from df command"
    else
      let fields := goFields (dfSecondLine out)
      if fields.length < 5 then .error "unexpected output format"
      else
        match goAtoi (dfUsageField out) with
        | .error _ => .error "failed to parse usage percentage"
        | .ok n => .ok n

/-- The error condition of `getDiskUsage` as the claim words it: the df
command fails, the output has fewer than two lines, the second line has
fewer than five fields, or the stripped fifth field does not parse. -/
def dfErrCond : CmdResult → Prop
  | .fail _ => True
  | .ok out =>
    (splitOnChar '\n' out.data).length < 2 ∨
      (goFields (dfSecondLine out)).length < 5 ∨
      goAtoi (dfUsageField out) = .error ()

instance : DecidablePred dfErrCond := fun r =>
  match r with
  | .fail _ => .isTrue trivial
  | .ok _ => by unfold dfErrCond; infer_instance

/-! ## os probe (`src/bin/os.go`) -/

/-- The payload struct posted to the `server_os` collection. -/
structure ServerOS where
  ID : String
  Name : String
  Version : String
  Golang : String
  Host : String
  Kernel : String
  Server : String
deriving DecidableEq

/-- The host environment the os probe observes.  `osVersion` is the
operating system's release version, an ambient fact of the environment
stated here so the claim about it can be expressed; the code never
queries it. -/
structure OSEnv where
  goos : String
  goarch : String
  goVersion : String
  osVersion : String
  hostname : Except String String
  unameR : Except String String
deriving DecidableEq

/-- `getServerOSInfo`: name from `runtime.GOOS`, version from
`runtime.GOARCH`, Go version from `runtime.Version()`, host from
`os.Hostname()`, kernel from `uname -r` on Linux and `"N/A"` otherwise. -/
def getServerOSInfo (e : OSEnv) : Except String ServerOS :=
  match e.hostname with
  | .error m => .error ("failed to get hostname: " ++ m)
  | .ok host =>
    if e.goos = "linux" then
      match e.unameR with
      | .error m => .error ("failed to get kernel version: " ++ m)
      | .ok k => .ok (ServerOS.mk "" e.goos e.goarch e.goVersion host k "")
    else .ok (ServerOS.mk "" e.goos e.goarch e.goVersion host "N/A" "")

/-- The payload `sendServerOSToPocketBase` marshals: the collected info
with the `Server` field set to the loaded server ID. -/
def osPayload (so : ServerOS) (serverID : String) : ServerOS :=
  { so with Server := serverID }

/-- The request body carrying a `ServerOS` payload. -/
def osBody (so : ServerOS) : ReqBody :=
  ReqBody.os so.ID so.Name so.Version so.Golang so.Host so.Kernel so.Server

/-- `sendServerOSToPocketBase`: one POST of the payload (the collected
info with `Server` set to the server ID) to the `server_os` collection. -/
def sendServerOSToPocketBase (apiURL serverID : String) (so : ServerOS)
    (wo : WriteResp) : List Request × Except String Unit :=
  let req := Request.mk .POST (apiURL ++ "/api/collections/server_os/records")
    (osBody (osPayload so serverID))
  match wo with
  | .netFail m => ([req], .error ("failed to send request: " ++ m))
  | .status s =>
    ([req],
      if s = 200 ∨ s = 201 then .ok ()
      else .error "failed to insert server OS info")

/-! ## nameserver probe (`src/unnamed/part_001`) -/

/-- A domain record as decoded from PocketBase. -/
structure DomainRec where
  id : String
  name : String
  nameserver : String
deriving DecidableEq

/-- The `udag` marker line searched for in nslookup output. -/
def udagPat : List Char := "origin = ns.udag.de".data

/-- The `hetzner` marker line searched for in nslookup output. -/
def hetznerPat : List Char := "origin = ns.hetzner.de".data

/-- The provider names one nslookup output line contributes: the two
independent substring checks of the scan loop, each guarded by the
`len(parts) > 1` field-count test. -/
def nsLineHits (l : List Char) : List String :=
  (if goContains l udagPat ∧ 1 < (goFields l).length then ["udag"] else []) ++
    (if goContains l hetznerPat ∧ 1 < (goFields l).length then ["hetzner"] else [])

/-- `getNameserverFromDNS(domain)`: run nslookup; collect provider names
from the output lines; return `("unknown", error)` when none were found,
`("", error)` when the command itself failed, and the comma-joined list
otherwise. -/
def getNameserverFromDNS (domain : String) (r : CmdResult) :
    String × Option String :=
  match r with
  | .fail m => ("", some ("failed to execute nslookup: " ++ m))
  | .ok out =>
    let nss := (scanLines out.data).foldl (fun acc l => acc ++ nsLineHits l) []
    if nss = [] then
      ("unknown", some ("no nameservers found for domain " ++ domain))
    else (joinComma nss, none)

/-- `updateDomainNameserver`: one PATCH of `{"nameserver": ns}` to the
domain's record URL, succeeding only on status 200. -/
def updateDomainNameserver (apiURL domainID ns : String) (wo : WriteResp) :
    List Request × Except String Unit :=
  let req := Request.mk .PATCH
    (apiURL ++ "/api/collections/domains/records/" ++ domainID)
    (ReqBody.ns ns)
  match wo with
  | .netFail m => ([req], .error ("failed to send request: " ++ m))
  | .status s =>
    ([req],
      if s = 200 then .ok ()
      else .error ("failed to update domain " ++ domainID))

/-- One iteration of the nameserver probe's `main` loop for a domain
record: look the nameserver up and update the record with whatever came
back, whether or not the lookup reported an error. -/
def nsProcessDomain (apiURL : String) (d : DomainRec) (lookup : CmdResult)
    (wo : WriteResp) : List Request × Except String Unit :=
  let res := getNameserverFromDNS d.name lookup
  updateDomainNameserver apiURL d.id res.1 wo

/-! ## Helper lemmas -/

theorem foldl_append_eq (f : α → List β) (L : List α) (a : List β) :
    L.foldl (fun acc x => acc ++ f x) a = a ++ listConcatMap f L := by
  induction L generalizing a with
  | nil => simp [listConcatMap]
  | cons x xs ih => simp [listConcatMap, ih, List.append_assoc]

theorem listConcatMap_eq_nil_iff (f : α → List β) (L : List α) :
    listConcatMap f L = [] ↔ ∀ x ∈ L, f x = [] := by
  induction L with
  | nil => simp [listConcatMap]
  | cons x xs ih => simp [listConcatMap, ih]

theorem goHasPre_iff (l p : List Char) :
    goHasPre l p = true ↔ ∃ t, l = p ++ t := by
  induction p generalizing l with
  | nil => simp [goHasPre]
  | cons q qs ih =>
    cases l with
    | nil => simp [goHasPre]
    | cons c cs =>
      simp only [goHasPre, Bool.and_eq_true, decide_eq_true_eq, ih,
        List.cons_append, List.cons.injEq]
      constructor
      · rintro ⟨rfl, t, rfl⟩
        exact ⟨t, rfl, rfl⟩
      · rintro ⟨t, rfl, rfl⟩
        exact ⟨rfl, t, rfl⟩

theorem goContains_iff (l p : List Char) :
    goContains l p = true ↔ ∃ a b, l = a ++ p ++ b := by
  induction l with
  | nil =>
    simp only [goContains, goHasPre_iff]
    constructor
    · rintro ⟨t, h⟩
      exact ⟨[], t, by simpa using h⟩
    · rintro ⟨a, b, h⟩
      cases a with
      | nil => exact ⟨b, by simpa using h⟩
      | cons x xs => simp at h
  | cons c cs ih =>
    simp only [goContains, Bool.or_eq_true, goHasPre_iff, ih]
    constructor
    · rintro (⟨t, h⟩ | ⟨a, b, h⟩)
      · exact ⟨[], t, by simpa using h⟩
      · exact ⟨c :: a, b, by simp [h]⟩
    · rintro ⟨a, b, h⟩
      cases a with
      | nil => exact Or.inl ⟨b, by simpa using h⟩
      | cons x xs =>
        simp only [List.cons_append, List.cons.injEq] at h
        exact Or.inr ⟨xs, b, h.2⟩

theorem goRemoveFirst_of_hasPre (l p : List Char) (h : goHasPre l p = true) :
    goRemoveFirst l p = goTrimPre l p := by
  cases l with
  | nil =>
    cases p with
    | nil => rfl
    | cons q qs => simp [goHasPre] at h
  | cons c cs => simp [goRemoveFirst, goTrimPre, h]

theorem wordsOf_step_ge (c : Char) (st : List Char × List (List Char)) :
    (wordsOf st).length ≤ (wordsOf (wordsStep c st)).length := by
  unfold wordsStep wordsOf
  by_cases hs : goIsSpace c
  · by_cases h1 : st.1 = [] <;> simp [hs, h1]
  · by_cases h1 : st.1 = [] <;> simp [hs, h1]

theorem wordsOf_foldr_ge (l : List Char) (st : List Char × List (List Char)) :
    (wordsOf st).length ≤ (wordsOf (l.foldr wordsStep st)).length := by
  induction l with
  | nil => simp
  | cons c cs ih => exact le_trans ih (wordsOf_step_ge c _)

theorem foldr_wordsStep_nonspace (ws : List Char)
    (h : ∀ c ∈ ws, goIsSpace c = false) (st : List Char × List (List Char)) :
    ws.foldr wordsStep st = (ws ++ st.1, st.2) := by
  induction ws with
  | nil => simp
  | cons c cs ih =>
    have hc : goIsSpace c = false := h c (by simp)
    have hrest := ih (fun x hx => h x (by simp [hx]))
    simp [List.foldr, hrest, wordsStep, hc]

theorem two_le_wordsOf_pattern (w1 w2 w3 : List Char)
    (h1 : w1 ≠ []) (h2 : w2 ≠ []) (h3 : w3 ≠ [])
    (n1 : ∀ c ∈ w1, goIsSpace c = false)
    (n2 : ∀ c ∈ w2, goIsSpace c = false)
    (n3 : ∀ c ∈ w3, goIsSpace c = false)
    (st : List Char × List (List Char)) :
    2 ≤ (wordsOf ((w1 ++ ' ' :: w2 ++ ' ' :: w3).foldr wordsStep st)).length := by
  obtain ⟨f0, a0⟩ := st
  have hsp : goIsSpace ' ' = true := by decide
  have hw3 : w3 ++ f0 ≠ [] := by
    cases w3 with
    | nil => exact absurd rfl h3
    | cons x xs => simp
  have e3 : w3.foldr wordsStep (f0, a0) = (w3 ++ f0, a0) :=
    foldr_wordsStep_nonspace w3 n3 _
  have e2' : wordsStep ' ' (w3 ++ f0, a0) = ([], (w3 ++ f0) :: a0) := by
    simp [wordsStep, hsp, hw3]
  have e2 : w2.foldr wordsStep ([], (w3 ++ f0) :: a0) =
      (w2, (w3 ++ f0) :: a0) := by
    simpa using foldr_wordsStep_nonspace w2 n2 ([], (w3 ++ f0) :: a0)
  have e1' : wordsStep ' ' (w2, (w3 ++ f0) :: a0) =
      ([], w2 :: (w3 ++ f0) :: a0) := by
    simp [wordsStep, hsp, h2]
  have e1 : w1.foldr wordsStep ([], w2 :: (w3 ++ f0) :: a0) =
      (w1, w2 :: (w3 ++ f0) :: a0) := by
    simpa using foldr_wordsStep_nonspace w1 n1 ([], w2 :: (w3 ++ f0) :: a0)
  calc 2 ≤ (wordsOf (w1, w2 :: (w3 ++ f0) :: a0)).length := by
        simp [wordsOf, h1]
    _ = (wordsOf ((w1 ++ ' ' :: w2 ++ ' ' :: w3).foldr wordsStep (f0, a0))).length := by
        rw [show w1 ++ ' ' :: w2 ++ ' ' :: w3 =
          w1 ++ (' ' :: (w2 ++ (' ' :: w3))) from by simp]
        rw [List.foldr_append, List.foldr_cons, List.foldr_append,
          List.foldr_cons, e3, e2', e2, e1', e1]

theorem one_lt_fields_of_contains (l pat w1 w2 w3 : List Char)
    (hpat : pat = w1 ++ ' ' :: w2 ++ ' ' :: w3)
    (h1 : w1 ≠ []) (h2 : w2 ≠ []) (h3 : w3 ≠ [])
    (n1 : ∀ c ∈ w1, goIsSpace c = false)
    (n2 : ∀ c ∈ w2, goIsSpace c = false)
    (n3 : ∀ c ∈ w3, goIsSpace c = false)
    (h : goContains l pat = true) : 1 < (goFields l).length := by
  obtain ⟨a, b, rfl⟩ := (goContains_iff l pat).mp h
  unfold goFields
  rw [List.foldr_append, List.foldr_append]
  have hge := wordsOf_foldr_ge a (pat.foldr wordsStep (b.foldr wordsStep ([], [])))
  have h2le : 2 ≤
      (wordsOf (pat.foldr wordsStep (b.foldr wordsStep ([], [])))).length := by
    rw [hpat]
    exact two_le_wordsOf_pattern w1 w2 w3 h1 h2 h3 n1 n2 n3 _
  omega

theorem one_lt_fields_of_contains_udag (l : List Char)
    (h : goContains l udagPat = true) : 1 < (goFields l).length := by
  refine one_lt_fields_of_contains l udagPat "origin".data "=".data
    "ns.udag.de".data (by decide) (by decide) (by decide) (by decide)
    (by decide) (by decide) (by decide) h

theorem one_lt_fields_of_contains_hetzner (l : List Char)
    (h : goContains l hetznerPat = true) : 1 < (goFields l).length := by
  refine one_lt_fields_of_contains l hetznerPat "origin".data "=".data
    "ns.hetzner.de".data (by decide) (by decide) (by decide) (by decide)
    (by decide) (by decide) (by decide) h

theorem orchLoop_eq_concatMap (ex : String → ExecResult) (L : List String) :
    orchLoop ex L = listConcatMap (runOne ex) L := by
  induction L with
  | nil => rfl
  | cons s rest ih => simp [orchLoop, listConcatMap, ih]

theorem runOne_filterMap_runOf (ex : String → ExecResult) (s : String) :
    (runOne ex s).filterMap runOf = [s] := by
  unfold runOne
  cases ex s <;> simp [runOf]

theorem orchLoop_filterMap_runOf (ex : String → ExecResult) (L : List String) :
    (orchLoop ex L).filterMap runOf = L := by
  induction L with
  | nil => rfl
  | cons s rest ih =>
    simp [orchLoop, List.filterMap_append, runOne_filterMap_runOf, ih]

theorem runOne_count_run (ex : String → ExecResult) (s t : String) :
    (runOne ex s).count (OEvent.run t) = if t = s then 1 else 0 := by
  unfold runOne
  cases ex s <;> by_cases h : t = s <;> simp [List.count_cons, h]

theorem orchLoop_count_run (ex : String → ExecResult) (L : List String)
    (s : String) : (orchLoop ex L).count (OEvent.run s) = L.count s := by
  induction L with
  | nil => rfl
  | cons x rest ih =>
    simp only [orchLoop, List.count_append, runOne_count_run, ih,
      List.count_cons]
    by_cases h : s = x
    · subst h
      simp [Nat.add_comm]
    · have hb : (x == s) = false :=
        beq_eq_false_iff_ne.mpr (fun hxs => h hxs.symm)
      simp [h, hb]

/-! ## C1 -/

/-- C1: the orchestrator's trace is exactly one block per script of the
fixed list `[bin/harddrive.go, bin/cpu.go, bin/domains.go,
bin/nameserver.go]`, in that order; every script is run exactly once (no
retries); a block is `run` followed by `logErr` with the script's error
and stderr exactly when the script failed (the loop continues with the
next script), and `run` followed by `printOut` of the captured stdout
exactly when it succeeded. -/
theorem C1_orchestrator_fixed_sequence (ex : String → ExecResult) :
    orchestrate ex = listConcatMap (runOne ex) scriptList ++ [OEvent.done] ∧
    (orchestrate ex).filterMap runOf =
      ["bin/harddrive.go", "bin/cpu.go", "bin/domains.go",
        "bin/nameserver.go"] ∧
    (∀ s : String, (orchestrate ex).count (OEvent.run s) =
      if s ∈ scriptList then 1 else 0) ∧
    (∀ s e st, runOne ex s = [OEvent.run s, OEvent.logErr s e st] ↔
      ex s = .fail e st) ∧
    (∀ s out, runOne ex s = [OEvent.run s, OEvent.printOut s out] ↔
      ex s = .ok out) := by
  refine ⟨?_, ?_, ?_, ?_, ?_⟩
  · unfold orchestrate
    rw [orchLoop_eq_concatMap]
  · simp [orchestrate, List.filterMap_append, orchLoop_filterMap_runOf,
      runOf, scriptList]
  · intro s
    have hc : (orchestrate ex).count (OEvent.run s) = scriptList.count s := by
      simp [orchestrate, List.count_append, orchLoop_count_run,
        List.count_cons]
    rw [hc]
    by_cases h1 : s = "bin/harddrive.go" <;>
      by_cases h2 : s = "bin/cpu.go" <;>
      by_cases h3 : s = "bin/domains.go" <;>
      by_cases h4 : s = "bin/nameserver.go" <;>
      simp_all [scriptList, List.count_cons]
  · intro s e st
    unfold runOne
    cases hx : ex s <;> simp
  · intro s out
    unfold runOne
    cases hx : ex s <;> simp [eq_comm]

theorem checkDomainExists_reqs (apiURL d sid : String) (r : CheckResp) :
    (checkDomainExists apiURL d sid r).1 =
      [Request.mk .GET (checkURL apiURL d) .empty] := by
  cases r <;> rfl

theorem checkDomainExists_ok_id (apiURL d sid : String) (r : CheckResp)
    (rid : String) (h : (checkDomainExists apiURL d sid r).2 = .ok rid) :
    rid = checkIdOf r := by
  cases r with
  | netFail m => simp [checkDomainExists] at h
  | resp status body =>
    simp only [checkDomainExists] at h
    by_cases hs : status = 200
    · subst hs
      cases body with
      | error m => simp at h
      | ok records =>
        cases records with
        | nil =>
          simp at h
          simp [checkIdOf, ← h]
        | cons r0 rs =>
          simp only [List.head?] at h
          cases hid : recIdStr r0 <;> simp [hid] at h <;>
            simp [checkIdOf, hid, ← h]
    · simp [hs] at h
      simp [checkIdOf, hs, ← h]

theorem processDomain_reqs_shape (apiURL sid : String)
    (co : String → CheckResp) (wo : String → WriteResp) (d : String) :
    (processDomain apiURL sid co wo d).1 =
      [Request.mk .GET (checkURL apiURL d) .empty] ∨
    (processDomain apiURL sid co wo d).1 =
      [Request.mk .GET (checkURL apiURL d) .empty,
        Request.mk (writeMethodOf (co d))
          (if checkIdOf (co d) ≠ "" then apiURL ++ "/" ++ checkIdOf (co d)
            else apiURL)
          (ReqBody.domains sid d "unkown")] := by
  unfold processDomain checkDomainExists checkIdOf writeMethodOf
  cases hco : co d with
  | netFail m => left; rfl
  | resp status body =>
    by_cases hs : status = 200
    · subst hs
      cases body with
      | error m => left; simp
      | ok records =>
        cases records with
        | nil =>
          right
          cases wo d <;> simp [checkIdOf]
        | cons r0 rs =>
          right
          cases hid : recIdStr r0 with
          | none => cases wo d <;> simp [checkIdOf, hid]
          | some id =>
            by_cases hid0 : id = "" <;> cases wo d <;> simp [checkIdOf, hid, hid0]
    · right
      cases wo d <;> simp [checkIdOf, hs]

theorem processDomain_ok_pairs (apiURL sid : String)
    (co : String → CheckResp) (wo : String → WriteResp) (d : String)
    (h : (processDomain apiURL sid co wo d).2 = .ok ()) :
    (processDomain apiURL sid co wo d).1.map (fun r => (r.method, r.body)) =
      [(HttpMethod.GET, ReqBody.empty),
        (writeMethodOf (co d), ReqBody.domains sid d "unkown")] := by
  rcases processDomain_reqs_shape apiURL sid co wo d with hs | hs
  · exfalso
    revert h hs
    unfold processDomain checkDomainExists
    cases co d with
    | netFail m => simp
    | resp status body =>
      by_cases hst : status = 200
      · subst hst
        cases body with
        | error m => simp
        | ok records =>
          cases records with
          | nil => cases wo d <;> simp
          | cons r0 rs => cases hid : recIdStr r0 <;> cases wo d <;> simp [hid]
      · cases wo d <;> simp [hst]
  · rw [hs]
    simp

theorem writeMethodOf_post_or_put (r : CheckResp) :
    writeMethodOf r = .POST ∨ writeMethodOf r = .PUT := by
  unfold writeMethodOf
  by_cases h : checkIdOf r ≠ "" <;> simp [h]

theorem processDomain_methods (apiURL sid : String)
    (co : String → CheckResp) (wo : String → WriteResp) (d : String) :
    ∀ r ∈ (processDomain apiURL sid co wo d).1,
      r.method = .GET ∨ r.method = .POST ∨ r.method = .PUT := by
  intro r hr
  rcases processDomain_reqs_shape apiURL sid co wo d with hs | hs <;>
    rw [hs] at hr
  · simp only [List.mem_singleton] at hr
    subst hr
    simp
  · simp only [List.mem_cons, List.mem_singleton, List.not_mem_nil,
      or_false] at hr
    rcases hr with rfl | rfl
    · simp
    · rcases writeMethodOf_post_or_put (co d) with hm | hm <;> simp [hm]

theorem sendLoop_cons (apiURL sid : String) (co : String → CheckResp)
    (wo : String → WriteResp) (d : String) (ds : List String) :
    sendLoop apiURL sid co wo (d :: ds) =
      match (processDomain apiURL sid co wo d).2 with
      | .error e => ((processDomain apiURL sid co wo d).1, .error e)
      | .ok _ =>
        ((processDomain apiURL sid co wo d).1 ++
          (sendLoop apiURL sid co wo ds).1,
          (sendLoop apiURL sid co wo ds).2) := rfl

theorem sendLoop_methods (apiURL sid : String) (co : String → CheckResp)
    (wo : String → WriteResp) (ds : List String) :
    ∀ r ∈ (sendLoop apiURL sid co wo ds).1,
      r.method = .GET ∨ r.method = .POST ∨ r.method = .PUT := by
  induction ds with
  | nil => simp [sendLoop]
  | cons d ds ih =>
    intro r hr
    rw [sendLoop_cons] at hr
    cases hp : (processDomain apiURL sid co wo d).2 with
    | error e =>
      rw [hp] at hr
      exact processDomain_methods apiURL sid co wo d r hr
    | ok u =>
      rw [hp] at hr
      simp only [List.mem_append] at hr
      rcases hr with hr | hr
      · exact processDomain_methods apiURL sid co wo d r hr
      · exact ih r hr

theorem sendLoop_ok_pairs (apiURL sid : String) (co : String → CheckResp)
    (wo : String → WriteResp) (ds : List String)
    (h : (sendLoop apiURL sid co wo ds).2 = .ok ()) :
    (sendLoop apiURL sid co wo ds).1.map (fun r => (r.method, r.body)) =
      listConcatMap
        (fun d => [(HttpMethod.GET, ReqBody.empty),
          (writeMethodOf (co d), ReqBody.domains sid d "unkown")]) ds := by
  induction ds with
  | nil => simp [sendLoop, listConcatMap]
  | cons d ds ih =>
    cases hp : (processDomain apiURL sid co wo d).2 with
    | error e =>
      rw [sendLoop_cons, hp] at h
      simp at h
    | ok u =>
      have h2 : (sendLoop apiURL sid co wo ds).2 = .ok () := by
        rw [sendLoop_cons, hp] at h
        exact h
      have hmap := processDomain_ok_pairs apiURL sid co wo d (by rw [hp])
      have hgoal : (sendLoop apiURL sid co wo (d :: ds)).1 =
          (processDomain apiURL sid co wo d).1 ++
            (sendLoop apiURL sid co wo ds).1 := by
        rw [sendLoop_cons, hp]
      rw [hgoal, List.map_append, hmap, ih h2, listConcatMap]

/-! ## C2 -/

/-- C2 (counterexample): when the existence check finds a record
(status 200 with a record whose `"id"` is `"r1"`), the domains probe
issues a PUT — a method outside POST/PATCH/GET — and it issues two
requests (the check GET and the write) for the single record it reports,
so the claim as stated fails. -/
theorem C2_claim_counterexample :
    ¬ (∀ r ∈ (sendDomainsToPocketBase "x.de" ["a.de"] "s1"
        (fun _ => CheckResp.resp 200 (.ok [[("id", JVal.str "r1")]]))
        (fun _ => WriteResp.status 200)).1,
      r.method = .POST ∨ r.method = .PATCH ∨ r.method = .GET) ∧
    (sendDomainsToPocketBase "x.de" ["a.de"] "s1"
        (fun _ => CheckResp.resp 200 (.ok [[("id", JVal.str "r1")]]))
        (fun _ => WriteResp.status 200)).1.map Request.method =
      [HttpMethod.GET, HttpMethod.PUT] := by
  constructor
  · decide
  · decide

/-- C2 (amended): every request the domains probe issues has method GET,
POST or PUT; and when the run succeeds, each reported record has produced
exactly one existence-check GET followed by exactly one write request
carrying the single serialized payload for that record, whose method is
POST (create) or PUT (update). -/
theorem C2_one_check_one_write_per_record (cfgDomain sid : String)
    (doms : List String) (co : String → CheckResp) (wo : String → WriteResp) :
    (∀ r ∈ (sendDomainsToPocketBase cfgDomain doms sid co wo).1,
      r.method = .GET ∨ r.method = .POST ∨ r.method = .PUT) ∧
    ((sendDomainsToPocketBase cfgDomain doms sid co wo).2 = .ok () →
      (sendDomainsToPocketBase cfgDomain doms sid co wo).1.map
          (fun r => (r.method, r.body)) =
        listConcatMap (fun d => [(HttpMethod.GET, ReqBody.empty),
          (writeMethodOf (co d), ReqBody.domains sid d "unkown")]) doms ∧
      ∀ d, writeMethodOf (co d) = .POST ∨ writeMethodOf (co d) = .PUT) := by
  refine ⟨sendLoop_methods _ _ _ _ _, fun h => ⟨?_, fun d => ?_⟩⟩
  · exact sendLoop_ok_pairs _ _ _ _ _ h
  · exact writeMethodOf_post_or_put (co d)

/-- C2 (witness): the amended theorem instantiated on a concrete
successful two-record run. -/
theorem C2_one_check_one_write_per_record_witness :
    (∀ r ∈ (sendDomainsToPocketBase "x.de" ["a.de", "b.de"] "s1"
        (fun _ => CheckResp.resp 404 (.ok [])) (fun _ => WriteResp.status 200)).1,
      r.method = .GET ∨ r.method = .POST ∨ r.method = .PUT) ∧
    (sendDomainsToPocketBase "x.de" ["a.de", "b.de"] "s1"
        (fun _ => CheckResp.resp 404 (.ok [])) (fun _ => WriteResp.status 200)).1.map
        (fun r => (r.method, r.body)) =
      listConcatMap (fun d => [(HttpMethod.GET, ReqBody.empty),
        (writeMethodOf (CheckResp.resp 404 (.ok [])),
          ReqBody.domains "s1" d "unkown")]) ["a.de", "b.de"] := by
  have h := C2_one_check_one_write_per_record "x.de" "s1" ["a.de", "b.de"]
    (fun _ => CheckResp.resp 404 (.ok [])) (fun _ => WriteResp.status 200)
  exact ⟨h.1, (h.2 (by decide)).1⟩

/-! ## C3 -/

/-- C3 (counterexample): the cpu probe's send is gated on the wall-clock
minute: at minute 0 it issues one POST, at minute 1 it issues nothing, so
with identical usage, server ID, domain and network behaviour two
invocations at different times differ and the minute-1 invocation sends
no report at all. -/
theorem C3_claim_counterexample :
    (sendUsageCPU 0 50 "srv" "x.de" (WriteResp.status 200)).1.length = 1 ∧
    (sendUsageCPU 1 50 "srv" "x.de" (WriteResp.status 200)).1 = [] ∧
    sendUsageCPU 0 50 "srv" "x.de" (WriteResp.status 200) ≠
      sendUsageCPU 1 50 "srv" "x.de" (WriteResp.status 200) := by
  refine ⟨rfl, rfl, fun h => ?_⟩
  have hl := congrArg (fun p => p.1.length) h
  simp [sendUsageCPU] at hl

/-- C3 (amended): the cpu probe's behaviour depends on the invocation
time only through whether the minute is 0: two invocations whose minutes
agree on being 0 behave identically; at a nonzero minute nothing is sent
and the call trivially succeeds; at minute 0 exactly one POST of the
usage payload is issued. -/
theorem C3_send_gated_on_minute (usage : ℚ) (id domain : String)
    (wo : WriteResp) (m1 m2 : Nat) (h : m1 = 0 ↔ m2 = 0) :
    sendUsageCPU m1 usage id domain wo = sendUsageCPU m2 usage id domain wo ∧
    (m1 ≠ 0 → sendUsageCPU m1 usage id domain wo = ([], .ok ())) ∧
    (m1 = 0 → (sendUsageCPU m1 usage id domain wo).1 =
      [Request.mk .POST (cpuApiURL domain) (ReqBody.cpu usage id)]) := by
  unfold sendUsageCPU
  by_cases h1 : m1 = 0
  · have h2 : m2 = 0 := h.mp h1
    refine ⟨by rw [h1, h2], fun hn => absurd h1 hn, fun _ => ?_⟩
    rw [h1]
    cases wo <;> simp
  · have h2 : ¬m2 = 0 := fun hh => h1 (h.mpr hh)
    exact ⟨by simp [h1, h2], fun _ => by simp [h1], fun h0 => absurd h0 h1⟩

/-- C3 (witness): two invocations at distinct nonzero minutes coincide
and send nothing. -/
theorem C3_send_gated_on_minute_witness :
    sendUsageCPU 5 50 "srv" "x.de" (WriteResp.status 200) =
      sendUsageCPU 7 50 "srv" "x.de" (WriteResp.status 200) ∧
    sendUsageCPU 5 50 "srv" "x.de" (WriteResp.status 200) = ([], .ok ()) := by
  have h := C3_send_gated_on_minute 50 "srv" "x.de" (WriteResp.status 200)
    5 7 (by simp)
  exact ⟨h.1, h.2.1 (by simp)⟩

/-! ## C4 helper lemmas -/

theorem foldl_modAdd_eq (vals : List Nat) (a : Nat) :
    vals.foldl (fun x t => (x + t) % 2 ^ 64) (a % 2 ^ 64) =
      (a + vals.sum) % 2 ^ 64 := by
  induction vals generalizing a with
  | nil => simp
  | cons t ts ih =>
    simp only [List.foldl_cons, List.sum_cons]
    rw [Nat.mod_add_mod]
    have := ih (a + t)
    rw [this]
    ring_nf

theorem sumU64_eq (vals : List Nat) : sumU64 vals = vals.sum % 2 ^ 64 := by
  have := foldl_modAdd_eq vals 0
  simpa [sumU64] using this

theorem parseCPUFields_ok_len (fs : List (List Char)) (vals : List Nat)
    (h : parseCPUFields fs = .ok vals) : vals.length = fs.length := by
  induction fs generalizing vals with
  | nil =>
    simp [parseCPUFields] at h
    simp [← h]
  | cons f fs ih =>
    unfold parseCPUFields at h
    cases hf : goParseUint64 f with
    | error e => rw [hf] at h; simp at h
    | ok n =>
      rw [hf] at h
      cases hr : parseCPUFields fs with
      | error e => rw [hr] at h; simp at h
      | ok ns =>
        rw [hr] at h
        simp only [Except.ok.injEq] at h
        subst h
        simp [ih ns hr]

theorem parseCPUFields_ok_get (fs : List (List Char)) (vals : List Nat)
    (h : parseCPUFields fs = .ok vals) :
    ∀ i, i < fs.length → goParseUint64 (fs.getD i []) = .ok (vals.getD i 0) := by
  induction fs generalizing vals with
  | nil => intro i hi; simp at hi
  | cons f fs ih =>
    unfold parseCPUFields at h
    cases hf : goParseUint64 f with
    | error e => rw [hf] at h; simp at h
    | ok n =>
      rw [hf] at h
      cases hr : parseCPUFields fs with
      | error e => rw [hr] at h; simp at h
      | ok ns =>
        rw [hr] at h
        simp only [Except.ok.injEq] at h
        subst h
        intro i hi
        cases i with
        | zero => simpa using hf
        | succ j =>
          simp only [List.getD_cons_succ]
          exact ih ns hr j (by simpa using hi)

theorem getD_drop_one (l : List (List Char)) (i : Nat) :
    (l.drop 1).getD i [] = l.getD (i + 1) [] := by
  cases l with
  | nil => simp
  | cons x xs => simp

/-! ## C4 -/

/-- C4 (counterexample): on a cpu line whose seven fields each hold the
maximal uint64 value, the Go accumulator wraps: the code divides by
`7 * (2^64 - 1) mod 2^64 = 2^64 - 7` instead of the true sum
`7 * (2^64 - 1)`, so the returned usage differs from the claim's
`100 * (1 - idle/total)` with `total` the sum of the fields. -/
theorem C4_claim_counterexample :
    exOk (getCPUUsage "cpu 18446744073709551615 18446744073709551615 18446744073709551615 18446744073709551615 18446744073709551615 18446744073709551615 18446744073709551615\n") =
      some (100 * (1 - (18446744073709551615 : ℚ) / 18446744073709551609)) ∧
    100 * (1 - (18446744073709551615 : ℚ) / 18446744073709551609) ≠
      100 * (1 - (18446744073709551615 : ℚ) / (7 * 18446744073709551615)) := by
  constructor
  · rfl
  · norm_num

/-- C4 (amended): `getCPUUsage` errors when no line starts with `"cpu "`,
when the first such line has fewer than 8 fields, and when some field
after the first fails to parse as a uint64; otherwise it returns
`100 * (1 - idle/total)` where `idle` is the fifth field and `total` is
the sum of all fields after the first reduced modulo `2 ^ 64` (the Go
uint64 accumulator wraps), the float64 division modelled exactly over
`ℚ`. -/
theorem C4_cpu_parse (content : String) :
    (procStatCpuLine content = none → exIsErr (getCPUUsage content) = true) ∧
    ∀ l, procStatCpuLine content = some l →
      ((goFields l).length < 8 → exIsErr (getCPUUsage content) = true) ∧
      (8 ≤ (goFields l).length →
        (parseCPUFields ((goFields l).drop 1) = .error () →
          exIsErr (getCPUUsage content) = true) ∧
        ∀ vals, parseCPUFields ((goFields l).drop 1) = .ok vals →
          getCPUUsage content =
            .ok (100 * (1 - (vals.getD 3 0 : ℚ) /
              ((vals.sum % 2 ^ 64 : ℕ) : ℚ)))) := by
  constructor
  · intro hn
    unfold getCPUUsage
    rw [hn]
    rfl
  · intro l hl
    refine ⟨?_, fun hlen => ⟨?_, ?_⟩⟩
    · intro hlen
      unfold getCPUUsage
      rw [hl]
      simp [hlen, exIsErr]
    · intro herr
      unfold getCPUUsage
      rw [hl]
      have hnot : ¬(goFields l).length < 8 := by omega
      rw [List.drop_one] at herr
      simp only [hnot, if_false]
      cases hidle : goParseUint64 ((goFields l).getD 4 []) with
      | error e => simp [hidle, exIsErr]
      | ok idle => simp [hidle, herr, exIsErr]
    · intro vals hvals
      have hlen2 : 3 < ((goFields l).drop 1).length := by
        simp only [List.length_drop]
        omega
      have hidle : goParseUint64 ((goFields l).getD 4 []) =
          .ok (vals.getD 3 0) := by
        rw [← getD_drop_one]
        exact parseCPUFields_ok_get _ vals hvals 3 hlen2
      have hnot : ¬(goFields l).length < 8 := by omega
      rw [List.drop_one] at hvals
      unfold getCPUUsage
      rw [hl]
      simp only [hnot, if_false]
      simp only [List.getD, List.get?_eq_getElem?] at hidle
      simp [hidle, hvals, sumU64_eq]

/-- C4 (witness): a well-formed `/proc/stat` whose cpu line parses; the
usage is `100 * (1 - 40/280)`. -/
theorem C4_cpu_parse_witness :
    getCPUUsage "cpu 10 20 30 40 50 60 70\ncpu0 1 1 1 1 1 1 1\n" =
      .ok (100 * (1 - (40 : ℚ) / 280)) := by
  have h := (C4_cpu_parse "cpu 10 20 30 40 50 60 70\ncpu0 1 1 1 1 1 1 1\n").2
    ("cpu 10 20 30 40 50 60 70".data) (by decide)
  have h2 := (h.2 (by decide)).2 [10, 20, 30, 40, 50, 60, 70] (by decide)
  simpa using h2

/-! ## C5 -/

/-- C5: `getDiskUsage` returns an error exactly when the df command
fails, its output has fewer than two newline-separated lines, the second
line has fewer than five whitespace-separated fields, or the fifth field
with a trailing `%` removed does not parse with `strconv.Atoi`; on
success the returned integer is exactly that parsed field. -/
theorem C5_disk_usage (r : CmdResult) :
    (exIsErr (getDiskUsage r) = true ↔ dfErrCond r) ∧
    ∀ out n, r = .ok out → getDiskUsage r = .ok n →
      goAtoi (dfUsageField out) = .ok n := by
  constructor
  · cases r with
    | fail m => simp [getDiskUsage, dfErrCond, exIsErr]
    | ok out =>
      unfold getDiskUsage dfErrCond
      by_cases hl : (splitOnChar '\n' out.data).length < 2
      · simp [hl, exIsErr]
      · simp only [hl, if_false]
        by_cases hf : (goFields (dfSecondLine out)).length < 5
        · simp [hf, exIsErr]
        · simp only [hf, if_false]
          cases ha : goAtoi (dfUsageField out) with
          | error e => simp [ha, exIsErr, hl, hf]
          | ok n => simp [ha, exIsErr, hl, hf]
  · intro out n hr hok
    subst hr
    unfold getDiskUsage at hok
    by_cases hl : (splitOnChar '\n' out.data).length < 2
    · simp [hl] at hok
    · simp only [hl, if_false] at hok
      by_cases hf : (goFields (dfSecondLine out)).length < 5
      · simp [hf] at hok
      · simp only [hf, if_false] at hok
        cases ha : goAtoi (dfUsageField out) with
        | error e => rw [ha] at hok; simp at hok
        | ok m =>
          rw [ha] at hok
          simp only [Except.ok.injEq] at hok
          rw [hok]

/-- C5 (witness): a two-line df output with `45%` in the fifth field of
the second line parses to 45. -/
theorem C5_disk_usage_witness :
    goAtoi (dfUsageField
      "Filesystem Size Used Avail Use% Mounted on\n/dev/sda1 50G 20G 30G 45% /\n") =
      .ok 45 :=
  (C5_disk_usage
    (.ok "Filesystem Size Used Avail Use% Mounted on\n/dev/sda1 50G 20G 30G 45% /\n")).2
    "Filesystem Size Used Avail Use% Mounted on\n/dev/sda1 50G 20G 30G 45% /\n"
    45 rfl (by decide)

/-! ## C6 -/

/-- C6 (counterexample): the code fills `Version` with `runtime.GOARCH`
(the machine architecture), not the operating-system version: in an
environment whose architecture is `"amd64"` and whose OS version is
`"12.1"`, the posted payload's `Version` is `"amd64"`. -/
theorem C6_claim_counterexample :
    exOk (getServerOSInfo
      (OSEnv.mk "linux" "amd64" "go1.22.1" "12.1" (.ok "web01")
        (.ok "6.1.0-18-amd64\n"))) =
      some (ServerOS.mk "" "linux" "amd64" "go1.22.1" "web01"
        "6.1.0-18-amd64\n" "") ∧
    (osPayload (ServerOS.mk "" "linux" "amd64" "go1.22.1" "web01"
        "6.1.0-18-amd64\n" "") "srv1").Version = "amd64" ∧
    (osPayload (ServerOS.mk "" "linux" "amd64" "go1.22.1" "web01"
        "6.1.0-18-amd64\n" "") "srv1").Version ≠
      (OSEnv.mk "linux" "amd64" "go1.22.1" "12.1" (.ok "web01")
        (.ok "6.1.0-18-amd64\n")).osVersion := by
  refine ⟨rfl, rfl, by decide⟩

/-- C6 (amended): the payload posted to `server_os` has `Name` the OS
name (`runtime.GOOS`), `Version` the machine architecture
(`runtime.GOARCH`, not the OS version), `Golang` the Go runtime version,
`Host` the hostname, `Kernel` the `uname -r` output on Linux and `"N/A"`
otherwise, and `Server` the server ID loaded from `.env`; it is sent as
one POST to the `server_os` collection. -/
theorem C6_os_payload (e : OSEnv) (serverID : String) (so : ServerOS)
    (h : getServerOSInfo e = .ok so) (wo : WriteResp) (apiURL : String) :
    so.Name = e.goos ∧
    so.Version = e.goarch ∧
    so.Golang = e.goVersion ∧
    (∃ hn, e.hostname = .ok hn ∧ so.Host = hn) ∧
    (e.goos = "linux" → ∃ k, e.unameR = .ok k ∧ so.Kernel = k) ∧
    (e.goos ≠ "linux" → so.Kernel = "N/A") ∧
    (osPayload so serverID).Server = serverID ∧
    (sendServerOSToPocketBase apiURL serverID so wo).1 =
      [Request.mk .POST (apiURL ++ "/api/collections/server_os/records")
        (osBody (osPayload so serverID))] := by
  unfold getServerOSInfo at h
  cases he : e.hostname with
  | error m => rw [he] at h; simp at h
  | ok host =>
    rw [he] at h
    by_cases hl : e.goos = "linux"
    · simp only [hl, if_true] at h
      cases hu : e.unameR with
      | error m => rw [hu] at h; simp at h
      | ok k =>
        rw [hu] at h
        simp only [Except.ok.injEq] at h
        subst h
        refine ⟨hl.symm, rfl, rfl, ⟨host, rfl, rfl⟩, fun _ => ⟨k, rfl, rfl⟩,
          fun hne => absurd hl hne, rfl, ?_⟩
        cases wo <;> rfl
    · simp only [hl, if_false] at h
      simp only [Except.ok.injEq] at h
      subst h
      refine ⟨rfl, rfl, rfl, ⟨host, rfl, rfl⟩, fun hlin => absurd hlin hl,
        fun _ => rfl, rfl, ?_⟩
      cases wo <;> rfl

/-- C6 (witness): the amended theorem on a concrete Linux environment. -/
theorem C6_os_payload_witness :
    (ServerOS.mk "" "linux" "arm64" "go1.21.0" "node02" "5.15.0\n" "").Name =
      (OSEnv.mk "linux" "arm64" "go1.21.0" "11.9" (.ok "node02")
        (.ok "5.15.0\n")).goos ∧
    (ServerOS.mk "" "linux" "arm64" "go1.21.0" "node02" "5.15.0\n" "").Version =
      (OSEnv.mk "linux" "arm64" "go1.21.0" "11.9" (.ok "node02")
        (.ok "5.15.0\n")).goarch ∧
    (ServerOS.mk "" "linux" "arm64" "go1.21.0" "node02" "5.15.0\n" "").Golang =
      (OSEnv.mk "linux" "arm64" "go1.21.0" "11.9" (.ok "node02")
        (.ok "5.15.0\n")).goVersion ∧
    (∃ hn, (OSEnv.mk "linux" "arm64" "go1.21.0" "11.9" (.ok "node02")
        (.ok "5.15.0\n")).hostname = .ok hn ∧
      (ServerOS.mk "" "linux" "arm64" "go1.21.0" "node02" "5.15.0\n" "").Host = hn) ∧
    ((OSEnv.mk "linux" "arm64" "go1.21.0" "11.9" (.ok "node02")
        (.ok "5.15.0\n")).goos = "linux" →
      ∃ k, (OSEnv.mk "linux" "arm64" "go1.21.0" "11.9" (.ok "node02")
        (.ok "5.15.0\n")).unameR = .ok k ∧
        (ServerOS.mk "" "linux" "arm64" "go1.21.0" "node02" "5.15.0\n" "").Kernel = k) ∧
    ((OSEnv.mk "linux" "arm64" "go1.21.0" "11.9" (.ok "node02")
        (.ok "5.15.0\n")).goos ≠ "linux" →
      (ServerOS.mk "" "linux" "arm64" "go1.21.0" "node02" "5.15.0\n" "").Kernel = "N/A") ∧
    (osPayload (ServerOS.mk "" "linux" "arm64" "go1.21.0" "node02" "5.15.0\n" "")
      "srv9").Server = "srv9" ∧
    (sendServerOSToPocketBase "https://admin.server-manager.cloud" "srv9"
      (ServerOS.mk "" "linux" "arm64" "go1.21.0" "node02" "5.15.0\n" "")
      (WriteResp.status 200)).1 =
      [Request.mk .POST
        ("https://admin.server-manager.cloud" ++ "/api/collections/server_os/records")
        (osBody (osPayload
          (ServerOS.mk "" "linux" "arm64" "go1.21.0" "node02" "5.15.0\n" "")
          "srv9"))] :=
  C6_os_payload
    (OSEnv.mk "linux" "arm64" "go1.21.0" "11.9" (.ok "node02") (.ok "5.15.0\n"))
    "srv9"
    (ServerOS.mk "" "linux" "arm64" "go1.21.0" "node02" "5.15.0\n" "")
    (by rfl) (WriteResp.status 200) "https://admin.server-manager.cloud"

/-! ## C7 -/

/-- C7 (counterexample): when the first scanned line is `"ID=abc"` and
the scanner would fail afterwards, `loadEnv` returns early with `"abc"`
and no error, although "scanning the file fails", so the claim's
error condition is not an exact characterisation. -/
theorem C7_claim_counterexample :
    loadEnvDomains (EnvFile.content ["ID=abc"] true) = .ok "abc" ∧
    (EnvFile.content ["ID=abc"] true).scanErrB = true ∧
    ¬ (exIsErr (loadEnvDomains (EnvFile.content ["ID=abc"] true)) = true ↔
      ((EnvFile.content ["ID=abc"] true).isOpenFail = true ∨
        (EnvFile.content ["ID=abc"] true).scanErrB = true ∨
        ((EnvFile.content ["ID=abc"] true).linesOf.any
          (fun l => strHasPre l "ID=")) = false)) := by
  refine ⟨rfl, rfl, by decide⟩

/-- C7 (amended): `loadEnv` of the domains probe returns the remainder
after `"ID="` of the first scanned line starting with `"ID="` (possibly
empty), and it returns an error iff the file cannot be opened or no
scanned line starts with `"ID="` (in which case a scan failure or the
missing ID is reported); a scan failure after an `"ID="` line does not
cause an error. -/
theorem C7_load_env (f : EnvFile) :
    (exIsErr (loadEnvDomains f) = true ↔
      (f.isOpenFail = true ∨
        f.linesOf.any (fun l => strHasPre l "ID=") = false)) ∧
    ∀ s, loadEnvDomains f = .ok s →
      ∃ l, f.linesOf.find? (fun l => strHasPre l "ID=") = some l ∧
        s = strTrimPre l "ID=" := by
  cases f with
  | openFail m =>
    constructor
    · simp [loadEnvDomains, EnvFile.isOpenFail, exIsErr]
    · intro s hs
      simp [loadEnvDomains] at hs
  | content lines scanErr =>
    constructor
    · unfold loadEnvDomains
      cases hf : lines.find? (fun l => strHasPre l "ID=") with
      | some l =>
        have hmem := List.mem_of_find?_eq_some hf
        have hpred := List.find?_some hf
        have hany : lines.any (fun l => strHasPre l "ID=") = true :=
          List.any_eq_true.mpr ⟨l, hmem, hpred⟩
        simp [exIsErr, EnvFile.isOpenFail, EnvFile.linesOf, hany, hf]
      | none =>
        have hall := List.find?_eq_none.mp hf
        have hany : lines.any (fun l => strHasPre l "ID=") = false := by
          simp only [List.any_eq_false]
          intro l hl
          simpa using hall l hl
        cases scanErr <;>
          simp [exIsErr, EnvFile.isOpenFail, EnvFile.linesOf, hany, hf]
    · intro s hs
      simp only [loadEnvDomains] at hs
      cases hf : lines.find? (fun l => strHasPre l "ID=") with
      | some l =>
        rw [hf] at hs
        simp only [Except.ok.injEq] at hs
        exact ⟨l, by simpa [EnvFile.linesOf] using hf, hs.symm⟩
      | none =>
        rw [hf] at hs
        cases scanErr <;> simp at hs

/-- C7 (witness): the amended theorem on a concrete `.env` content with
a comment line, an `"ID="` line and a clean scan. -/
theorem C7_load_env_witness :
    (exIsErr (loadEnvDomains
        (EnvFile.content ["# env", "ID=srv42", "X=1"] false)) = true ↔
      ((EnvFile.content ["# env", "ID=srv42", "X=1"] false).isOpenFail = true ∨
        (EnvFile.content ["# env", "ID=srv42", "X=1"] false).linesOf.any
          (fun l => strHasPre l "ID=") = false)) ∧
    ∃ l, (EnvFile.content ["# env", "ID=srv42", "X=1"] false).linesOf.find?
        (fun l => strHasPre l "ID=") = some l ∧
      "srv42" = strTrimPre l "ID=" := by
  have h := C7_load_env (EnvFile.content ["# env", "ID=srv42", "X=1"] false)
  exact ⟨h.1, h.2 "srv42" (by decide)⟩

/-! ## C8 -/

/-- C8: whenever the existence-check response completes with a non-200
status, or decodes to an empty record list, or its first record has no
string `"id"` field, `checkDomainExists` returns the empty record ID with
no error, and `sendDomainsToPocketBase` then issues the write for that
record as a POST to the collection URL (a create), not a PUT. -/
theorem C8_check_fallback_posts (cfgDomain sid d : String) (co : String → CheckResp)
    (wo : String → WriteResp) (status : Nat)
    (body : Except String (List JRecord))
    (hco : co d = CheckResp.resp status body)
    (hfb : status ≠ 200 ∨ body = .ok [] ∨
      (∃ r0 rs, body = .ok (r0 :: rs) ∧ recIdStr r0 = none)) :
    (checkDomainExists (domainsApiURL cfgDomain) d sid (co d)).2 = .ok "" ∧
    (sendDomainsToPocketBase cfgDomain [d] sid co wo).1.map
        (fun r => (r.method, r.url)) =
      [(HttpMethod.GET, checkURL (domainsApiURL cfgDomain) d),
        (HttpMethod.POST, domainsApiURL cfgDomain)] := by
  constructor
  · rw [hco]
    unfold checkDomainExists
    rcases hfb with hs | hb | ⟨r0, rs, hb, hid⟩
    · simp [hs]
    · subst hb
      by_cases hst : status = 200 <;> simp [hst]
    · subst hb
      by_cases hst : status = 200 <;> simp [hst, hid]
  · have h1 : (sendDomainsToPocketBase cfgDomain [d] sid co wo).1 =
        (processDomain (domainsApiURL cfgDomain) sid co wo d).1 := by
      unfold sendDomainsToPocketBase
      rw [sendLoop_cons]
      cases hp : (processDomain (domainsApiURL cfgDomain) sid co wo d).2 with
      | error e => rfl
      | ok u => simp [sendLoop]
    rw [h1]
    unfold processDomain checkDomainExists
    rw [hco]
    rcases hfb with hs | hb | ⟨r0, rs, hb, hid⟩
    · cases wo d <;> simp [hs]
    · subst hb
      by_cases hst : status = 200 <;> cases wo d <;> simp [hst]
    · subst hb
      by_cases hst : status = 200 <;> cases wo d <;> simp [hst, hid]

/-- C8 (witness): a 404 existence check leads to `.ok ""` and a POST. -/
theorem C8_check_fallback_posts_witness :
    (checkDomainExists (domainsApiURL "x.de") "a.de" "s1"
      ((fun _ => CheckResp.resp 404 (.ok [])) "a.de")).2 = .ok "" ∧
    (sendDomainsToPocketBase "x.de" ["a.de"] "s1"
      (fun _ => CheckResp.resp 404 (.ok []))
      (fun _ => WriteResp.status 200)).1.map (fun r => (r.method, r.url)) =
      [(HttpMethod.GET, checkURL (domainsApiURL "x.de") "a.de"),
        (HttpMethod.POST, domainsApiURL "x.de")] :=
  C8_check_fallback_posts "x.de" "s1" "a.de"
    (fun _ => CheckResp.resp 404 (.ok [])) (fun _ => WriteResp.status 200)
    404 (.ok []) rfl (Or.inl (by decide))

/-! ## C9 -/

theorem nsLineHits_eq_nil_iff (l : List Char) :
    nsLineHits l = [] ↔
      (goContains l udagPat = false ∧ goContains l hetznerPat = false) := by
  unfold nsLineHits
  constructor
  · intro h
    constructor
    · by_contra hc
      have hc' : goContains l udagPat = true := by
        simpa using hc
      have hf := one_lt_fields_of_contains_udag l hc'
      simp [hc', hf] at h
    · by_contra hc
      have hc' : goContains l hetznerPat = true := by
        simpa using hc
      have hf := one_lt_fields_of_contains_hetzner l hc'
      simp [hc', hf] at h
  · rintro ⟨h1, h2⟩
    simp [h1, h2]

theorem getNameserverFromDNS_ok (domain out : String) :
    getNameserverFromDNS domain (.ok out) =
      (if listConcatMap nsLineHits (scanLines out.data) = [] then
        ("unknown", some ("no nameservers found for domain " ++ domain))
      else (joinComma (listConcatMap nsLineHits (scanLines out.data)), none)) := by
  have h0 : getNameserverFromDNS domain (.ok out) =
      (if List.foldl (fun acc l => acc ++ nsLineHits l) []
          (scanLines out.data) = [] then
        ("unknown", some ("no nameservers found for domain " ++ domain))
      else (joinComma (List.foldl (fun acc l => acc ++ nsLineHits l) []
        (scanLines out.data)), none)) := rfl
  rw [h0, foldl_append_eq]
  simp

/-- C9: on nslookup output, `getNameserverFromDNS` returns `"unknown"`
together with an error exactly when no output line contains
`"origin = ns.udag.de"` or `"origin = ns.hetzner.de"` (a line containing
either marker always has more than one field, so the `len(parts) > 1`
guard never filters one out); and for every such failed lookup the main
loop still PATCHes the domain's record with nameserver `"unknown"`. -/
theorem C9_unknown_still_patched (domain out apiURL lookupOut : String) (d : DomainRec)
    (wo : WriteResp) :
    (((getNameserverFromDNS domain (.ok out)).1 = "unknown" ∧
        (getNameserverFromDNS domain (.ok out)).2.isSome = true) ↔
      ∀ l ∈ scanLines out.data, goContains l udagPat = false ∧
        goContains l hetznerPat = false) ∧
    ((getNameserverFromDNS d.name (.ok lookupOut)).2.isSome = true →
      (nsProcessDomain apiURL d (.ok lookupOut) wo).1 =
        [Request.mk .PATCH
          (apiURL ++ "/api/collections/domains/records/" ++ d.id)
          (ReqBody.ns "unknown")]) := by
  constructor
  · rw [getNameserverFromDNS_ok]
    by_cases hn : listConcatMap nsLineHits (scanLines out.data) = []
    · simp only [hn, if_true]
      constructor
      · intro _ l hl
        exact (nsLineHits_eq_nil_iff l).mp
          ((listConcatMap_eq_nil_iff nsLineHits (scanLines out.data)).mp hn l hl)
      · intro _
        simp
    · simp only [hn, if_false]
      constructor
      · rintro ⟨h1, h2⟩
        simp at h2
      · intro hall
        exact absurd ((listConcatMap_eq_nil_iff nsLineHits
          (scanLines out.data)).mpr
          (fun l hl => (nsLineHits_eq_nil_iff l).mpr (hall l hl))) hn
  · intro herr
    rw [getNameserverFromDNS_ok] at herr
    have hfst : (getNameserverFromDNS d.name (.ok lookupOut)).1 = "unknown" := by
      rw [getNameserverFromDNS_ok]
      by_cases hn : listConcatMap nsLineHits (scanLines lookupOut.data) = []
      · simp [hn]
      · simp only [hn, if_false] at herr
        simp at herr
    have h1 : (nsProcessDomain apiURL d (.ok lookupOut) wo).1 =
        [Request.mk .PATCH
          (apiURL ++ "/api/collections/domains/records/" ++ d.id)
          (ReqBody.ns (getNameserverFromDNS d.name (.ok lookupOut)).1)] := by
      unfold nsProcessDomain updateDomainNameserver
      cases wo <;> rfl
    rw [h1, hfst]

/-- C9 (witness): an nslookup output with no origin markers yields
`"unknown"` and the record is still PATCHed with `"unknown"`. -/
theorem C9_unknown_still_patched_witness :
    (((getNameserverFromDNS "a.de"
        (.ok "Server: 1.1.1.1\nAddress: 1.1.1.1#53\n")).1 = "unknown" ∧
      (getNameserverFromDNS "a.de"
        (.ok "Server: 1.1.1.1\nAddress: 1.1.1.1#53\n")).2.isSome = true) ↔
      ∀ l ∈ scanLines "Server: 1.1.1.1\nAddress: 1.1.1.1#53\n".data,
        goContains l udagPat = false ∧ goContains l hetznerPat = false) ∧
    (nsProcessDomain "https://admin.server-manager.cloud"
        (DomainRec.mk "rec1" "a.de" "")
        (.ok "Server: 1.1.1.1\nAddress: 1.1.1.1#53\n")
        (WriteResp.status 200)).1 =
      [Request.mk .PATCH
        ("https://admin.server-manager.cloud" ++
          "/api/collections/domains/records/" ++ (DomainRec.mk "rec1" "a.de" "").id)
        (ReqBody.ns "unknown")] := by
  have h := C9_unknown_still_patched "a.de"
    "Server: 1.1.1.1\nAddress: 1.1.1.1#53\n"
    "https://admin.server-manager.cloud"
    "Server: 1.1.1.1\nAddress: 1.1.1.1#53\n"
    (DomainRec.mk "rec1" "a.de" "") (WriteResp.status 200)
  exact ⟨h.1, h.2 (by decide)⟩

/-! ## C10 -/

/-- C10 (counterexample): on the line `"Certificate Name: foo"` the
domains.go parser keeps the surrounding whitespace (`" foo"`) while the
part_003 parser trims it (`"foo"`), so the two parsers do not return the
same list. -/
theorem C10_claim_counterexample :
    certNamesA "Certificate Name: foo" = [" foo"] ∧
    certNamesB "Certificate Name: foo" = ["foo"] ∧
    certNamesA "Certificate Name: foo" ≠ certNamesB "Certificate Name: foo" := by
  refine ⟨by decide, by decide, by decide⟩

theorem foldl_filter_map (p : α → Bool) (f : α → β) (L : List α)
    (a : List β) :
    L.foldl (fun acc x => if p x then acc ++ [f x] else acc) a =
      a ++ (L.filter p).map f := by
  induction L generalizing a with
  | nil => simp
  | cons x xs ih =>
    by_cases hp : p x <;>
      simp [hp, ih, List.filter_cons]

/-- C10 (amended): the two certbot parsers select exactly the same lines
(those containing `"Certificate Name:"`); domains.go maps each to the
line with the first marker occurrence removed, part_003 maps each to the
prefix- and whitespace-trimmed name, and when every matching line starts
with the marker, part_003's list is the elementwise whitespace-trimming
of domains.go's list; the lists are not equal in general. -/
theorem C10_parsers_related (out : String) :
    certNamesA out = ((scanLines out.data).filter
        (fun l => goContains l "Certificate Name:".data)).map
        (fun l => (⟨goRemoveFirst l "Certificate Name:".data⟩ : String)) ∧
    certNamesB out = ((scanLines out.data).filter
        (fun l => goContains l "Certificate Name:".data)).map
        (fun l => (⟨goTrimSpace (goTrimPre l "Certificate Name:".data)⟩ : String)) ∧
    ((∀ l ∈ scanLines out.data, goContains l "Certificate Name:".data = true →
        goHasPre l "Certificate Name:".data = true) →
      certNamesB out = (certNamesA out).map
        (fun s => (⟨goTrimSpace s.data⟩ : String))) := by
  have hA : certNamesA out = ((scanLines out.data).filter
      (fun l => goContains l "Certificate Name:".data)).map
      (fun l => (⟨goRemoveFirst l "Certificate Name:".data⟩ : String)) := by
    unfold certNamesA
    rw [foldl_filter_map]
    simp
  have hB : certNamesB out = ((scanLines out.data).filter
      (fun l => goContains l "Certificate Name:".data)).map
      (fun l => (⟨goTrimSpace (goTrimPre l "Certificate Name:".data)⟩ : String)) := by
    unfold certNamesB
    rw [foldl_filter_map]
    simp
  refine ⟨hA, hB, fun hpre => ?_⟩
  rw [hA, hB, List.map_map]
  apply List.map_congr_left
  intro l hl
  simp only [List.mem_filter] at hl
  have hhas := hpre l hl.1 hl.2
  simp only [Function.comp]
  rw [← goRemoveFirst_of_hasPre l "Certificate Name:".data hhas]

/-- C10 (witness): on a certbot output whose matching lines start with
the marker, the part_003 list is the trimmed domains.go list. -/
theorem C10_parsers_related_witness :
    certNamesB "Certificate Name: foo\n  Domains: foo.de\nCertificate Name: bar\n" =
      (certNamesA "Certificate Name: foo\n  Domains: foo.de\nCertificate Name: bar\n").map
        (fun s => (⟨goTrimSpace s.data⟩ : String)) :=
  (C10_parsers_related
    "Certificate Name: foo\n  Domains: foo.de\nCertificate Name: bar\n").2.2
    (by decide)
